import Mathlib

/-!
Shallow embedding of the CDSI lookup protocol client core
(`rust/net/src/cdsi.rs`). Bytes are modelled as `Nat` values (each byte
below 256 where it matters), byte buffers as `List Nat`, and text as
`List Char`.
-/

/-- Big-endian interpretation of a byte sequence as a natural number
(models `u64::from_be_bytes` and the 128-bit value of `uuid::Bytes`). -/
def beBytesToNat (bytes : List Nat) : Nat :=
  bytes.foldl (fun acc b => acc * 256 + b) 0

/-- Big-endian 8-byte encoding of a 64-bit value (models `u64::to_be_bytes`). -/
def u64_to_be_bytes (n : Nat) : List Nat :=
  [n / 2 ^ 56 % 256, n / 2 ^ 48 % 256, n / 2 ^ 40 % 256, n / 2 ^ 32 % 256,
   n / 2 ^ 24 % 256, n / 2 ^ 16 % 256, n / 2 ^ 8 % 256, n % 256]

/-- Embeds `E164::SERIALIZED_LEN`. -/
def E164.SERIALIZED_LEN : Nat := 8

/-- Embeds `E164::from_serialized`: big-endian decode of 8 bytes,
`None` when the value is zero (`NonZeroU64::new`). An `E164` value is
modelled as the underlying number. -/
def E164.from_serialized (bytes : List Nat) : Option Nat :=
  if beBytesToNat bytes = 0 then none else some (beBytesToNat bytes)

/-- Embeds `s.strip_prefix('+').unwrap_or(s)` in `E164::from_str`. -/
def stripLeadingPlus (s : List Char) : List Char :=
  match s with
  | [] => []
  | c :: rest => if c = '+' then rest else c :: rest

/-- Models Rust std `u64::from_str`: an optional single leading `+` sign
followed by one or more ASCII digits, with the value below `2 ^ 64`;
a leading `-` or any other non-digit character is rejected for an
unsigned type. -/
def u64_from_str (s : List Char) : Option Nat :=
  match s with
  | [] => none
  | c :: rest =>
    let ds := if c = '+' then rest else c :: rest
    if ds = [] then none
    else if ds.all Char.isDigit then
      let v := ds.foldl (fun acc d => acc * 10 + (d.toNat - 48)) 0
      if v < 2 ^ 64 then some v else none
    else none

/-- Models Rust std `NonZeroU64::from_str`: `u64` parsing plus a zero check. -/
def NonZeroU64_from_str (s : List Char) : Option Nat :=
  match u64_from_str s with
  | none => none
  | some v => if v = 0 then none else some v

/-- Embeds `impl FromStr for E164`. -/
def E164.from_str (s : List Char) : Option Nat :=
  NonZeroU64_from_str (stripLeadingPlus s)

/-- Embeds `serialize_into` of `impl FixedLengthSerializable for E164`:
it writes `u64::to_be_bytes` of the number. -/
def E164.serialize (e : Nat) : List Nat := u64_to_be_bytes e

/-- Decimal text form of a number, most-significant digit first. -/
def decimalRepr (n : Nat) : List Char :=
  ((Nat.digits 10 n).reverse).map Nat.digitChar

/-- Embeds `AciAndAccessKey`: a 16-byte ACI (uuid bytes) paired with a
16-byte access key. -/
structure AciAndAccessKey where
  aci : List Nat
  access_key : List Nat
  deriving DecidableEq

/-- Embeds `AciAndAccessKey::SERIALIZED_LEN`. -/
def AciAndAccessKey.SERIALIZED_LEN : Nat := 32

/-- Embeds `serialize_into` of `impl FixedLengthSerializable for
AciAndAccessKey`: uuid bytes first, access key bytes after. -/
def AciAndAccessKey.serialize (p : AciAndAccessKey) : List Nat :=
  p.aci ++ p.access_key

/-- Embeds `CollectSerialized::collect_serialized`: serialize each item of
the sequence into consecutive fixed-length chunks of one output buffer. -/
def collect_serialized {α : Type} (ser : α → List Nat) (items : List α) : List Nat :=
  (items.map ser).flatten

/-- Embeds `proto::cds2::ClientRequest` (generated prost message), with the
fields this core touches. -/
structure ClientRequest where
  aci_uak_pairs : List Nat
  new_e164s : List Nat
  prev_e164s : List Nat
  return_acis_without_uaks : Bool
  token : List Nat
  token_ack : Bool
  discard_e164s : List Nat
  deriving DecidableEq

/-- Models `Default::default()` for `ClientRequest` (prost defaults: empty
buffers and false flags). -/
def ClientRequest.default : ClientRequest :=
  { aci_uak_pairs := [], new_e164s := [], prev_e164s := [],
    return_acis_without_uaks := false, token := [], token_ack := false,
    discard_e164s := [] }

/-- Embeds `LookupRequest`; phone numbers are E164 values (numbers). -/
structure LookupRequest where
  new_e164s : List Nat
  prev_e164s : List Nat
  acis_and_access_keys : List AciAndAccessKey
  return_acis_without_uaks : Bool
  token : List Nat
  deriving DecidableEq

/-- Embeds `LookupRequest::into_client_request`. -/
def LookupRequest.into_client_request (r : LookupRequest) : ClientRequest :=
  { aci_uak_pairs := collect_serialized AciAndAccessKey.serialize r.acis_and_access_keys,
    new_e164s := collect_serialized E164.serialize r.new_e164s,
    prev_e164s := collect_serialized E164.serialize r.prev_e164s,
    return_acis_without_uaks := r.return_acis_without_uaks,
    token := r.token,
    token_ack := false,
    discard_e164s := [] }

/-- Embeds the `token_ack` message built in `ClientResponseCollector::collect`:
`ClientRequest { token_ack: true, ..Default::default() }`. -/
def tokenAckRequest : ClientRequest :=
  { ClientRequest.default with token_ack := true }

/-- Embeds `proto::cds2::ClientResponse` (generated prost message). -/
structure ClientResponse where
  e164_pni_aci_triples : List Nat
  token : List Nat
  debug_permits_used : Int
  deriving DecidableEq

/-- Embeds `Token` (an opaque byte sequence). -/
structure Token where
  bytes : List Nat
  deriving DecidableEq

/-- Embeds `ClientResponseCollector`; the wrapped connection is external
state and carries no data in this embedding. -/
structure ClientResponseCollector where
  deriving DecidableEq

/-- Embeds `LookupResponseEntry`; ACI and PNI are 16-byte uuid values. -/
structure LookupResponseEntry where
  e164 : Nat
  aci : Option (List Nat)
  pni : Option (List Nat)
  deriving DecidableEq

/-- Embeds `LookupResponse`. -/
structure LookupResponse where
  records : List LookupResponseEntry
  debug_permits_used : Int
  deriving DecidableEq

/-- Embeds `LookupResponseParseError`. -/
inductive LookupResponseParseError where
  | InvalidNumberOfBytes (actual_length : Nat)
  deriving DecidableEq

/-- Embeds `LookupError`; payloads of wrapped lower-layer errors are
omitted (they are external types). -/
inductive LookupError where
  | Protocol
  | AttestationError
  | InvalidResponse
  | RateLimited (retry_after_seconds : Nat)
  | ParseError
  | ConnectTransport
  | WebSocket
  | Timeout
  deriving DecidableEq

/-- Embeds `impl From<LookupResponseParseError> for LookupError`. -/
def LookupError.from_parse_error : LookupResponseParseError → LookupError
  | .InvalidNumberOfBytes _ => .ParseError

/-- Embeds `LookupResponseEntry::UUID_LEN`. -/
def LookupResponseEntry.UUID_LEN : Nat := 16

/-- Embeds `LookupResponseEntry::SERIALIZED_LEN` (8 + 16 * 2 = 40). -/
def LookupResponseEntry.SERIALIZED_LEN : Nat :=
  E164.SERIALIZED_LEN + LookupResponseEntry.UUID_LEN * 2

/-- Embeds the inner `non_nil_uuid` helper of `try_parse_from`:
`Uuid::is_nil` holds exactly when the 128-bit value of the bytes is zero;
a non-nil uuid is kept as its bytes. -/
def non_nil_uuid (bytes : List Nat) : Option (List Nat) :=
  if beBytesToNat bytes = 0 then none else some bytes

/-- Embeds `LookupResponseEntry::try_parse_from` on a 40-byte record:
split at 8 into e164 bytes and the rest, decode the e164 (abandoning the
record when it is zero), then split the rest at 16 into the PNI slot
followed by the ACI slot. -/
def LookupResponseEntry.try_parse_from (record : List Nat) : Option LookupResponseEntry :=
  let e164_bytes := record.take E164.SERIALIZED_LEN
  let rest := record.drop E164.SERIALIZED_LEN
  match E164.from_serialized e164_bytes with
  | none => none
  | some e164 =>
    let pni_bytes := rest.take LookupResponseEntry.UUID_LEN
    let aci_bytes := rest.drop LookupResponseEntry.UUID_LEN
    some { e164 := e164, aci := non_nil_uuid aci_bytes, pni := non_nil_uuid pni_bytes }

/-- Embeds `slice::chunks` (used with chunk size 40; a trailing short chunk
would be produced when the length is not a multiple, but `try_from` only
chunks after its divisibility check). -/
def chunksOf {α : Type} (n : Nat) (l : List α) : List (List α) :=
  if h : n = 0 ∨ l.isEmpty then []
  else l.take n :: chunksOf n (l.drop n)
termination_by l.length
decreasing_by
  simp only [not_or, List.isEmpty_iff] at h
  have h1 : 0 < n := Nat.pos_of_ne_zero h.1
  have h2 : 0 < l.length := List.length_pos.mpr h.2
  simp only [List.length_drop]
  omega

/-- Embeds `impl TryFrom<ClientResponse> for LookupResponse`. -/
def LookupResponse.try_from (response : ClientResponse)  :
    Except LookupResponseParseError LookupResponse :=
  if response.e164_pni_aci_triples.length % LookupResponseEntry.SERIALIZED_LEN ≠ 0 then
    .error (.InvalidNumberOfBytes response.e164_pni_aci_triples.length)
  else
    .ok { records :=
            (chunksOf LookupResponseEntry.SERIALIZED_LEN
                response.e164_pni_aci_triples).filterMap
              LookupResponseEntry.try_parse_from,
          debug_permits_used := response.debug_permits_used }

/-- Embeds `RateLimitExceededResponse::CLOSE_CODE`. -/
def RateLimitExceededResponse.CLOSE_CODE : Nat := 4008

/-- Embeds the websocket close frame seen by `send_request` (code, reason). -/
structure CloseFrame where
  code : Nat
  reason : List Char
  deriving DecidableEq

/-- Embeds `NextOrClose<T>` from the websocket layer. -/
inductive NextOrClose (α : Type) where
  | next (t : α)
  | close (frame : Option CloseFrame)
  deriving DecidableEq

/-- Embeds `NextOrClose::next_or`. -/
def NextOrClose.next_or {α : Type} (v : NextOrClose α) (err : LookupError) :
    Except LookupError α :=
  match v with
  | .next t => .ok t
  | .close _ => .error err

/-- Embeds the receive-handling logic of `CdsiConnection::send_request` as a
function of the first channel receive after the initial request is sent.
JSON parsing of the close reason (`serde_json::from_str` for
`RateLimitExceededResponse`) is external library code and is supplied as
the `parseRetryAfter` argument. -/
def send_request (first : NextOrClose ClientResponse)
    (parseRetryAfter : List Char → Option Nat) :
    Except LookupError (Token × ClientResponseCollector) :=
  match first with
  | .next token_response =>
    if token_response.token = [] then .error .Protocol
    else .ok (⟨token_response.token⟩, ⟨⟩)
  | .close close =>
    match close with
    | some frame =>
      if frame.code = RateLimitExceededResponse.CLOSE_CODE then
        match parseRetryAfter frame.reason with
        | some retry_after_seconds => .error (.RateLimited retry_after_seconds)
        | none => .error .Protocol
      else .error .Protocol
    | none => .error .Protocol

/-- Modelled from the spec: prost `Message::merge` on the generated
`ClientResponse` (the generated proto code is not present under `src/`):
repeated and byte-sequence fields concatenate across merges and scalar
fields are overwritten by the latest message. -/
def mergeClientResponse (acc latest : ClientResponse) : ClientResponse :=
  { e164_pni_aci_triples := acc.e164_pni_aci_triples ++ latest.e164_pni_aci_triples,
    token := acc.token ++ latest.token,
    debug_permits_used := latest.debug_permits_used }

/-- Embeds `ClientResponseCollector::collect` as a function of the first
receive after the token acknowledgment is sent and of the successfully
decoded raw messages received before the loop's terminating close event. -/
def collect (first : NextOrClose ClientResponse) (raws : List ClientResponse) :
    Except LookupError LookupResponse :=
  match first.next_or LookupError.Protocol with
  | .error e => .error e
  | .ok response =>
    match LookupResponse.try_from (raws.foldl mergeClientResponse response) with
    | .ok r => .ok r
    | .error e => .error (LookupError.from_parse_error e)

/-! Helper lemmas. -/

/-- Folding the big-endian accumulator gives zero exactly when the seed and
every byte are zero. -/
theorem foldl_be_eq_zero (bytes : List Nat) (acc : Nat) :
    bytes.foldl (fun a b => a * 256 + b) acc = 0 ↔ acc = 0 ∧ ∀ b ∈ bytes, b = 0 := by
  induction bytes generalizing acc with
  | nil => simp
  | cons b bs ih =>
    simp only [List.foldl_cons, ih, List.mem_cons]
    constructor
    · rintro ⟨h1, h2⟩
      refine ⟨by omega, fun x hx => ?_⟩
      rcases hx with rfl | hx
      · omega
      · exact h2 x hx
    · rintro ⟨h1, h2⟩
      refine ⟨?_, fun x hx => h2 x (Or.inr hx)⟩
      have := h2 b (Or.inl rfl)
      omega

/-- A big-endian byte value is zero exactly when every byte is zero. -/
theorem beBytesToNat_eq_zero (bytes : List Nat) :
    beBytesToNat bytes = 0 ↔ ∀ b ∈ bytes, b = 0 := by
  simpa [beBytesToNat] using foldl_be_eq_zero bytes 0

/-- A big-endian byte value is zero exactly when the bytes are a run of
zeros of the same length. -/
theorem beBytesToNat_eq_zero_iff_replicate (bytes : List Nat) :
    beBytesToNat bytes = 0 ↔ bytes = List.replicate bytes.length 0 := by
  rw [beBytesToNat_eq_zero, List.eq_replicate_iff]
  simp

/-! Claim theorems. -/

/-- C1: decoding a response buffer whose length is not a multiple of 40
fails with a parse error carrying the observed length; a buffer whose
length is a multiple of 40 decodes without failure. -/
theorem c1_response_length_divisibility (r : ClientResponse) :
    (r.e164_pni_aci_triples.length % 40 ≠ 0 →
      LookupResponse.try_from r =
        .error (.InvalidNumberOfBytes r.e164_pni_aci_triples.length)) ∧
    (r.e164_pni_aci_triples.length % 40 = 0 →
      ∃ resp, LookupResponse.try_from r = .ok resp) := by
  constructor
  · intro h
    simp [LookupResponse.try_from, LookupResponseEntry.SERIALIZED_LEN,
      E164.SERIALIZED_LEN, LookupResponseEntry.UUID_LEN, h]
  · intro h
    exact ⟨⟨(chunksOf LookupResponseEntry.SERIALIZED_LEN
        r.e164_pni_aci_triples).filterMap LookupResponseEntry.try_parse_from,
        r.debug_permits_used⟩, by
      simp [LookupResponse.try_from, LookupResponseEntry.SERIALIZED_LEN,
        E164.SERIALIZED_LEN, LookupResponseEntry.UUID_LEN, h]⟩

/-- Witness for C1 at a concrete 1-byte (invalid-length) buffer. -/
theorem c1_response_length_divisibility_witness :
    LookupResponse.try_from ⟨[0], [], 0⟩ = .error (.InvalidNumberOfBytes 1) :=
  (c1_response_length_divisibility ⟨[0], [], 0⟩).1 (by decide)

/-- C2: during the token exchange, a close frame with code 4008 whose
reason parses to a retry delay fails with RateLimited carrying that delay;
code 4008 with unparseable reason, or any other close code, fails with the
generic Protocol error. -/
theorem c2_rate_limit_close_handling (jp : List Char → Option Nat)
    (frame : CloseFrame) :
    (∀ n, frame.code = 4008 → jp frame.reason = some n →
      send_request (.close (some frame)) jp = .error (.RateLimited n)) ∧
    (frame.code = 4008 → jp frame.reason = none →
      send_request (.close (some frame)) jp = .error .Protocol) ∧
    (frame.code ≠ 4008 →
      send_request (.close (some frame)) jp = .error .Protocol) := by
  refine ⟨fun n h1 h2 => ?_, fun h1 h2 => ?_, fun h1 => ?_⟩
  · simp [send_request, RateLimitExceededResponse.CLOSE_CODE, h1, h2]
  · simp [send_request, RateLimitExceededResponse.CLOSE_CODE, h1, h2]
  · simp [send_request, RateLimitExceededResponse.CLOSE_CODE, h1]

/-- Witness for C2: code 4008 with a parser returning 30 seconds. -/
theorem c2_rate_limit_close_handling_witness :
    send_request (.close (some ⟨4008, []⟩)) (fun _ => some 30) =
      .error (.RateLimited 30) :=
  (c2_rate_limit_close_handling (fun _ => some 30) ⟨4008, []⟩).1 30 rfl rfl

/-- C3: a first reply with an empty token fails with the generic Protocol
error; a non-empty token is returned together with the streaming-phase
collector. -/
theorem c3_empty_token_protocol_error (resp : ClientResponse)
    (jp : List Char → Option Nat) :
    (resp.token = [] → send_request (.next resp) jp = .error .Protocol) ∧
    (resp.token ≠ [] →
      send_request (.next resp) jp = .ok (⟨resp.token⟩, ⟨⟩)) := by
  constructor <;> intro h <;> simp [send_request, h]

/-- Witness for C3 at a concrete non-empty token. -/
theorem c3_empty_token_protocol_error_witness :
    send_request (.next ⟨[], [1], 0⟩) (fun _ => none) = .ok (⟨[1]⟩, ⟨⟩) :=
  (c3_empty_token_protocol_error ⟨[], [1], 0⟩ (fun _ => none)).2 (by decide)

/-- C4: in the streaming phase, a close on the first receive after the
acknowledgment is a terminal Protocol error, while the loop ending in a
close yields the decoded accumulated response as success. -/
theorem c4_collect_close_semantics :
    (∀ (frame : Option CloseFrame) (raws : List ClientResponse),
      collect (.close frame) raws = .error .Protocol) ∧
    (∀ (first : ClientResponse) (raws : List ClientResponse)
        (resp : LookupResponse),
      LookupResponse.try_from (raws.foldl mergeClientResponse first) = .ok resp →
      collect (.next first) raws = .ok resp) := by
  constructor
  · intro frame raws
    simp [collect, NextOrClose.next_or]
  · intro first raws resp h
    simp [collect, NextOrClose.next_or, h]

/-- Witness for C4: an empty accumulated buffer decodes successfully. -/
theorem c4_collect_close_semantics_witness :
    collect (.next ⟨[], [], 7⟩) [] = .ok ⟨[], 7⟩ :=
  c4_collect_close_semantics.2 ⟨[], [], 7⟩ [] ⟨[], 7⟩ (by
    simp [LookupResponse.try_from, chunksOf, LookupResponseEntry.SERIALIZED_LEN,
      E164.SERIALIZED_LEN, LookupResponseEntry.UUID_LEN])

/-- C9: the initial wire message always has token_ack false and an empty
discard list, copying the request's token and return-without-key flag; the
token-acknowledgment message has every list field empty, an empty token,
and token_ack true. -/
theorem c9_initial_message_and_token_ack :
    (∀ r : LookupRequest,
      r.into_client_request.token_ack = false ∧
      r.into_client_request.discard_e164s = [] ∧
      r.into_client_request.token = r.token ∧
      r.into_client_request.return_acis_without_uaks =
        r.return_acis_without_uaks) ∧
    tokenAckRequest.token_ack = true ∧
    tokenAckRequest.aci_uak_pairs = [] ∧
    tokenAckRequest.new_e164s = [] ∧
    tokenAckRequest.prev_e164s = [] ∧
    tokenAckRequest.discard_e164s = [] ∧
    tokenAckRequest.token = [] :=
  ⟨fun _ => ⟨rfl, rfl, rfl, rfl⟩, rfl, rfl, rfl, rfl, rfl, rfl⟩

/-- Unfolding `chunksOf` on the empty list. -/
theorem chunksOf_nil {α : Type} (n : Nat) : chunksOf n ([] : List α) = [] := by
  simp [chunksOf]

/-- Chunking the concatenation of equal-length chunks recovers the chunks. -/
theorem chunksOf_flatten {α : Type} (n : Nat) (cs : List (List α)) (hn : 0 < n)
    (h : ∀ c ∈ cs, c.length = n) : chunksOf n cs.flatten = cs := by
  induction cs with
  | nil => simp [chunksOf]
  | cons c cs ih =>
    have hc : c.length = n := h c (List.mem_cons_self c cs)
    have hcne : c ≠ [] := by
      intro hh
      rw [hh] at hc
      simp at hc
      omega
    rw [List.flatten_cons, chunksOf, dif_neg]
    · rw [List.take_left' hc, List.drop_left' hc,
        ih (fun x hx => h x (List.mem_cons_of_mem c hx))]
    · simp only [not_or, List.isEmpty_iff, List.append_eq_nil]
      exact ⟨by omega, fun hh => hcne hh.1⟩

/-- Every chunk of a buffer whose length is a multiple of the chunk size has
exactly the chunk size. -/
theorem chunksOf_length_mem {α : Type} (n : Nat) (l : List α) :
    l.length % n = 0 → ∀ c ∈ chunksOf n l, c.length = n := by
  refine chunksOf.induct n
    (fun t => t.length % n = 0 → ∀ c ∈ chunksOf n t, c.length = n) ?_ ?_ l
  · intro x hx _ c hc
    rw [chunksOf, dif_pos hx] at hc
    simp at hc
  · intro x hx ih hd c hc
    simp only [not_or, List.isEmpty_iff] at hx
    have hn : 0 < n := Nat.pos_of_ne_zero hx.1
    have hl : 0 < x.length := List.length_pos.mpr hx.2
    have hge : n ≤ x.length := by
      rcases Nat.lt_or_ge x.length n with hlt | hge
      · rw [Nat.mod_eq_of_lt hlt] at hd
        omega
      · exact hge
    rw [chunksOf,
      dif_neg (by simp only [not_or, List.isEmpty_iff]; exact ⟨hx.1, hx.2⟩)] at hc
    rcases List.mem_cons.mp hc with rfl | hc
    · simp only [List.length_take]
      omega
    · have hdvd : n ∣ (x.drop n).length := by
        have h1 : n ∣ x.length := Nat.dvd_of_mod_eq_zero hd
        simp only [List.length_drop]
        exact Nat.dvd_sub' h1 (Nat.dvd_refl n)
      exact ih (Nat.mod_eq_zero_of_dvd hdvd) c hc

/-- Concatenating equal-length chunks yields a buffer of proportional length. -/
theorem flatten_length_of_mem {α : Type} (n : Nat) (cs : List (List α))
    (h : ∀ x ∈ cs, x.length = n) : cs.flatten.length = cs.length * n := by
  induction cs with
  | nil => simp
  | cons x xs ih =>
    simp only [List.flatten_cons, List.length_append, List.length_cons,
      ih (fun y hy => h y (List.mem_cons_of_mem x hy)),
      h x (List.mem_cons_self x xs)]
    ring

/-- Specialized zero test: a byte list of known length is zero-valued
exactly when it is that many zero bytes. -/
theorem beBytes_zero_iff_rep (bytes : List Nat) (k : Nat) (h : bytes.length = k) :
    beBytesToNat bytes = 0 ↔ bytes = List.replicate k 0 := by
  subst h
  exact beBytesToNat_eq_zero_iff_replicate bytes

/-- Characterization of `try_parse_from` on a 40-byte record by its three
slots: bytes 0-8 phone number, 8-24 PNI slot, 24-40 ACI slot, with the
all-zero sentinel meaning a skipped record or an absent identifier. -/
theorem try_parse_from_eq (c : List Nat) (hclen : c.length = 40) :
    LookupResponseEntry.try_parse_from c =
      if c.take 8 = List.replicate 8 0 then none
      else some
        { e164 := beBytesToNat (c.take 8),
          aci := if c.drop 24 = List.replicate 16 0 then none
                 else some (c.drop 24),
          pni := if (c.drop 8).take 16 = List.replicate 16 0 then none
                 else some ((c.drop 8).take 16) } := by
  have h8 : (c.take 8).length = 8 := by
    simp only [List.length_take]
    omega
  have h16a : ((c.drop 8).take 16).length = 16 := by
    simp only [List.length_take, List.length_drop]
    omega
  have h16b : (c.drop 24).length = 16 := by
    simp only [List.length_drop]
    omega
  have hdd : (c.drop 8).drop 16 = c.drop 24 := by
    rw [List.drop_drop]
  by_cases hz : c.take 8 = List.replicate 8 0
  · have hzv : beBytesToNat (c.take 8) = 0 := (beBytes_zero_iff_rep _ 8 h8).mpr hz
    have hfs : E164.from_serialized (c.take 8) = none := by
      simp [E164.from_serialized, hzv]
    rw [if_pos hz]
    simp [LookupResponseEntry.try_parse_from, E164.SERIALIZED_LEN, hfs]
  · have hnz : ¬ beBytesToNat (c.take 8) = 0 := fun hh =>
      hz ((beBytes_zero_iff_rep _ 8 h8).mp hh)
    have hfs : E164.from_serialized (c.take 8) =
        some (beBytesToNat (c.take 8)) := by
      simp [E164.from_serialized, hnz]
    rw [if_neg hz]
    simp only [LookupResponseEntry.try_parse_from, E164.SERIALIZED_LEN,
      LookupResponseEntry.UUID_LEN, hfs, non_nil_uuid, hdd]
    simp only [beBytes_zero_iff_rep _ 16 h16a, beBytes_zero_iff_rep _ 16 h16b]

/-- Unfolding `try_from` on a length-valid buffer. -/
theorem try_from_of_mod (r : ClientResponse)
    (h : r.e164_pni_aci_triples.length % 40 = 0) :
    LookupResponse.try_from r =
      .ok { records := (chunksOf 40 r.e164_pni_aci_triples).filterMap
              LookupResponseEntry.try_parse_from,
            debug_permits_used := r.debug_permits_used } := by
  simp [LookupResponse.try_from, LookupResponseEntry.SERIALIZED_LEN,
    E164.SERIALIZED_LEN, LookupResponseEntry.UUID_LEN, h]

/-- C5: a length-valid buffer is decoded by splitting it into consecutive
40-byte chunks in order; each chunk splits into phone number bytes [0,8),
PNI slot [8,24) and ACI slot [24,40), and each 16-byte identifier slot is
absent exactly when its bytes are all zero, present with those bytes
otherwise; records keep chunk order. -/
theorem c5_chunked_record_decoding (r : ClientResponse)
    (hlen : r.e164_pni_aci_triples.length % 40 = 0) :
    LookupResponse.try_from r =
      .ok { records := (chunksOf 40 r.e164_pni_aci_triples).filterMap
              LookupResponseEntry.try_parse_from,
            debug_permits_used := r.debug_permits_used } ∧
    ∀ c ∈ chunksOf 40 r.e164_pni_aci_triples,
      c.length = 40 ∧
      LookupResponseEntry.try_parse_from c =
        (if c.take 8 = List.replicate 8 0 then none
         else some
           { e164 := beBytesToNat (c.take 8),
             aci := if c.drop 24 = List.replicate 16 0 then none
                    else some (c.drop 24),
             pni := if (c.drop 8).take 16 = List.replicate 16 0 then none
                    else some ((c.drop 8).take 16) }) := by
  constructor
  · exact try_from_of_mod r hlen
  · intro c hc
    have hclen : c.length = 40 := chunksOf_length_mem 40 _ hlen c hc
    exact ⟨hclen, try_parse_from_eq c hclen⟩

/-- Witness for C5 at a concrete one-chunk buffer of nonzero bytes. -/
theorem c5_chunked_record_decoding_witness :
    LookupResponse.try_from ⟨List.replicate 40 1, [], 9⟩ =
      .ok { records := (chunksOf 40 (List.replicate 40 1)).filterMap
              LookupResponseEntry.try_parse_from,
            debug_permits_used := 9 } :=
  (c5_chunked_record_decoding ⟨List.replicate 40 1, [], 9⟩ (by simp)).1

/-- C6: a 40-byte chunk whose first 8 bytes are zero is silently omitted
from the decoded records; the remaining chunks decode normally. -/
theorem c6_zero_e164_record_skipped (pre suf : List (List Nat)) (c : List Nat)
    (tok : List Nat) (d : Int)
    (hpre : ∀ x ∈ pre, x.length = 40) (hsuf : ∀ x ∈ suf, x.length = 40)
    (hc : c.length = 40) (hz : c.take 8 = List.replicate 8 0) :
    LookupResponse.try_from ⟨(pre ++ c :: suf).flatten, tok, d⟩ =
      .ok { records := pre.filterMap LookupResponseEntry.try_parse_from ++
              suf.filterMap LookupResponseEntry.try_parse_from,
            debug_permits_used := d } := by
  have hall : ∀ x ∈ pre ++ c :: suf, x.length = 40 := by
    intro x hx
    rcases List.mem_append.mp hx with hx | hx
    · exact hpre x hx
    · rcases List.mem_cons.mp hx with rfl | hx
      · exact hc
      · exact hsuf x hx
  have hchunks : chunksOf 40 (pre ++ c :: suf).flatten = pre ++ c :: suf :=
    chunksOf_flatten 40 _ (by norm_num) hall
  have hmod : ((pre ++ c :: suf).flatten).length % 40 = 0 := by
    rw [flatten_length_of_mem 40 _ hall]
    simp [Nat.mul_mod_left]
  have hcnone : LookupResponseEntry.try_parse_from c = none := by
    rw [try_parse_from_eq c hc, if_pos hz]
  rw [try_from_of_mod ⟨(pre ++ c :: suf).flatten, tok, d⟩ hmod]
  simp only [hchunks, List.filterMap_append, List.filterMap_cons, hcnone]

/-- Witness for C6: an all-zero chunk followed by a chunk for phone
number 1 decodes to just the second record. -/
theorem c6_zero_e164_record_skipped_witness :
    LookupResponse.try_from
      ⟨(([] : List (List Nat)) ++ List.replicate 40 0 ::
          [[0, 0, 0, 0, 0, 0, 0, 1] ++ List.replicate 32 0]).flatten, [], 3⟩ =
      .ok { records := [] ++ [{ e164 := 1, aci := none, pni := none }],
            debug_permits_used := 3 } := by
  rw [c6_zero_e164_record_skipped [] [[0, 0, 0, 0, 0, 0, 0, 1] ++ List.replicate 32 0]
    (List.replicate 40 0) [] 3 (by simp)
    (by
      intro x hx
      simp only [List.mem_singleton] at hx
      subst hx
      decide)
    (by simp) (by simp [List.take_replicate])]
  rfl

/-- Item `i` of a fixed-length serialization occupies bytes
`[i*L, (i+1)*L)` of the output. -/
theorem collect_serialized_get {α : Type} (ser : α → List Nat) (L : Nat) :
    ∀ (items : List α), (∀ x ∈ items, (ser x).length = L) →
      ∀ i (hi : i < items.length),
        ((collect_serialized ser items).drop (i * L)).take L =
          ser (items.get ⟨i, hi⟩) := by
  intro items
  induction items with
  | nil =>
    intro _ i hi
    simp at hi
  | cons x xs ih =>
    intro h i hi
    have hx : (ser x).length = L := h x (List.mem_cons_self x xs)
    cases i with
    | zero =>
      simp only [collect_serialized, List.map_cons, List.flatten_cons,
        Nat.zero_mul, List.drop_zero]
      rw [List.take_left' hx]
      rfl
    | succ j =>
      have hstep : (j + 1) * L = L + j * L := by ring
      simp only [collect_serialized, List.map_cons, List.flatten_cons, hstep]
      rw [← List.drop_drop, List.drop_left' hx]
      exact ih (fun y hy => h y (List.mem_cons_of_mem x hy)) j (by simpa using hi)

/-- C8: the generic encoder over K items of serialized length L yields
exactly K*L bytes, item i at bytes [i*L, (i+1)*L) in input order; for
identifier+access-key pairs L = 32 with the identifier in the first 16
bytes and the access key in the next 16. -/
theorem c8_fixed_length_concatenation {α : Type} (ser : α → List Nat) (L : Nat)
    (items : List α) (h : ∀ x ∈ items, (ser x).length = L) :
    (collect_serialized ser items).length = items.length * L ∧
    (∀ i (hi : i < items.length),
      ((collect_serialized ser items).drop (i * L)).take L =
        ser (items.get ⟨i, hi⟩)) ∧
    (∀ p : AciAndAccessKey, p.aci.length = 16 → p.access_key.length = 16 →
      (AciAndAccessKey.serialize p).length = 32 ∧
      (AciAndAccessKey.serialize p).take 16 = p.aci ∧
      (AciAndAccessKey.serialize p).drop 16 = p.access_key) := by
  refine ⟨?_, collect_serialized_get ser L items h, ?_⟩
  · have hmap : ∀ x ∈ items.map ser, x.length = L := by
      intro x hx
      obtain ⟨y, hy, rfl⟩ := List.mem_map.mp hx
      exact h y hy
    rw [collect_serialized, flatten_length_of_mem L _ hmap, List.length_map]
  · intro p h1 h2
    refine ⟨?_, ?_, ?_⟩
    · simp [AciAndAccessKey.serialize, h1, h2]
    · rw [AciAndAccessKey.serialize, List.take_left' h1]
    · rw [AciAndAccessKey.serialize, List.drop_left' h1]

/-- Witness for C8: one concrete pair serializes to 32 bytes. -/
theorem c8_fixed_length_concatenation_witness :
    (collect_serialized AciAndAccessKey.serialize
      [{ aci := List.replicate 16 1, access_key := List.replicate 16 2 }]).length =
      1 * 32 :=
  (c8_fixed_length_concatenation AciAndAccessKey.serialize 32
    [{ aci := List.replicate 16 1, access_key := List.replicate 16 2 }]
    (by
      intro x hx
      simp only [List.mem_singleton] at hx
      subst hx
      decide)).1

/-- Decoding the big-endian encoding of a 64-bit value gives it back. -/
theorem beBytesToNat_to_be_bytes (n : Nat) (h : n < 2 ^ 64) :
    beBytesToNat (u64_to_be_bytes n) = n := by
  simp only [beBytesToNat, u64_to_be_bytes, List.foldl_cons, List.foldl_nil]
  norm_num
  omega

/-- Facts about decimal digit characters. -/
theorem digitChar_facts (d : Nat) (h : d < 10) :
    (Nat.digitChar d).isDigit = true ∧ (Nat.digitChar d).toNat - 48 = d ∧
      Nat.digitChar d ≠ '+' := by
  interval_cases d <;> exact ⟨by decide, by decide, by decide⟩

/-- Folding the decimal accumulator over the printed digits recovers the
digits value. -/
theorem foldl_digits (ds : List Nat) (h : ∀ d ∈ ds, d < 10) :
    (ds.reverse.map Nat.digitChar).foldl
      (fun acc d => acc * 10 + (d.toNat - 48)) 0 = Nat.ofDigits 10 ds := by
  induction ds with
  | nil => simp [Nat.ofDigits_nil]
  | cons d tl ih =>
    have hd : d < 10 := h d (List.mem_cons_self d tl)
    simp only [List.reverse_cons, List.map_append, List.map_cons, List.map_nil,
      List.foldl_append, List.foldl_cons, List.foldl_nil,
      ih (fun x hx => h x (List.mem_cons_of_mem d hx)), Nat.ofDigits_cons]
    rw [(digitChar_facts d hd).2.1]
    ring

/-- Every character of the decimal form is a digit and is not a plus. -/
theorem decimalRepr_mem (n : Nat) :
    ∀ x ∈ decimalRepr n, x.isDigit = true ∧ x ≠ '+' := by
  intro x hx
  simp only [decimalRepr, List.mem_map, List.mem_reverse] at hx
  obtain ⟨d, hd, rfl⟩ := hx
  have hlt : d < 10 := Nat.digits_lt_base (by norm_num) hd
  exact ⟨(digitChar_facts d hlt).1, (digitChar_facts d hlt).2.2⟩

/-- The decimal form passes the all-digit check. -/
theorem decimalRepr_all_digits (n : Nat) :
    (decimalRepr n).all Char.isDigit = true := by
  rw [List.all_eq_true]
  intro x hx
  exact (decimalRepr_mem n x hx).1

/-- The decimal form of a nonzero number is nonempty. -/
theorem decimalRepr_ne_nil (n : Nat) (h0 : n ≠ 0) : decimalRepr n ≠ [] := by
  simp [decimalRepr, Nat.digits_ne_nil_iff_ne_zero, h0]

/-- The decimal accumulator evaluates the decimal form to the number. -/
theorem decimalRepr_foldl (n : Nat) :
    (decimalRepr n).foldl (fun acc d => acc * 10 + (d.toNat - 48)) 0 = n := by
  rw [decimalRepr,
    foldl_digits (Nat.digits 10 n) (fun d hd => Nat.digits_lt_base (by norm_num) hd),
    Nat.ofDigits_digits]

/-- Stripping a non-plus head leaves the string unchanged. -/
theorem stripLeadingPlus_cons_ne (c : Char) (rest : List Char) (h : c ≠ '+') :
    stripLeadingPlus (c :: rest) = c :: rest := by
  simp [stripLeadingPlus, h]

/-- Stripping removes exactly one leading plus. -/
theorem stripLeadingPlus_cons_plus (rest : List Char) :
    stripLeadingPlus ('+' :: rest) = rest := by
  simp [stripLeadingPlus]

/-- Parsing the decimal form of an in-range number succeeds. -/
theorem u64_from_str_decimalRepr (n : Nat) (h0 : n ≠ 0) (h64 : n < 2 ^ 64) :
    u64_from_str (decimalRepr n) = some n := by
  obtain ⟨c, rest, hc⟩ := List.exists_cons_of_ne_nil (decimalRepr_ne_nil n h0)
  have hcp : c ≠ '+' := (decimalRepr_mem n c (hc ▸ List.mem_cons_self c rest)).2
  have hall : (c :: rest).all Char.isDigit = true := hc ▸ decimalRepr_all_digits n
  have hfold : (c :: rest).foldl (fun acc d => acc * 10 + (d.toNat - 48)) 0 = n :=
    hc ▸ decimalRepr_foldl n
  rw [hc]
  simp only [u64_from_str, if_neg hcp]
  rw [if_neg (List.cons_ne_nil c rest), if_pos hall, hfold, if_pos h64]

/-- Unfolding the integer parser on a string with a leading plus sign. -/
theorem u64_from_str_plus_cons (rest : List Char) :
    u64_from_str ('+' :: rest) =
      (if rest = [] then none
       else if rest.all Char.isDigit then
         if rest.foldl (fun acc d => acc * 10 + (d.toNat - 48)) 0 < 2 ^ 64 then
           some (rest.foldl (fun acc d => acc * 10 + (d.toNat - 48)) 0)
         else none
       else none) := by
  simp [u64_from_str]

/-- Parsing a plus followed by the decimal form also succeeds: the
underlying integer parser itself accepts one leading plus sign. -/
theorem u64_from_str_plus_decimalRepr (n : Nat) (h0 : n ≠ 0)
    (h64 : n < 2 ^ 64) : u64_from_str ('+' :: decimalRepr n) = some n := by
  rw [u64_from_str_plus_cons, if_neg (decimalRepr_ne_nil n h0),
    if_pos (decimalRepr_all_digits n), decimalRepr_foldl, if_pos h64]

/-- E164 parsing of the bare decimal form succeeds. -/
theorem e164_from_str_decimalRepr (n : Nat) (h0 : n ≠ 0) (h64 : n < 2 ^ 64) :
    E164.from_str (decimalRepr n) = some n := by
  have hs : stripLeadingPlus (decimalRepr n) = decimalRepr n := by
    cases hc : decimalRepr n with
    | nil => rfl
    | cons c rest =>
      exact stripLeadingPlus_cons_ne c rest
        ((decimalRepr_mem n c (hc ▸ List.mem_cons_self c rest)).2)
  rw [E164.from_str, hs]
  simp [NonZeroU64_from_str, u64_from_str_decimalRepr n h0 h64, h0]

/-- E164 parsing with one leading plus succeeds. -/
theorem e164_from_str_plus (n : Nat) (h0 : n ≠ 0) (h64 : n < 2 ^ 64) :
    E164.from_str ('+' :: decimalRepr n) = some n := by
  rw [E164.from_str, stripLeadingPlus_cons_plus]
  simp [NonZeroU64_from_str, u64_from_str_decimalRepr n h0 h64, h0]

/-- E164 parsing with two leading plus signs also succeeds: the strip
removes one and the integer parser accepts the other. -/
theorem e164_from_str_plus_plus (n : Nat) (h0 : n ≠ 0) (h64 : n < 2 ^ 64) :
    E164.from_str ('+' :: '+' :: decimalRepr n) = some n := by
  rw [E164.from_str, stripLeadingPlus_cons_plus]
  simp [NonZeroU64_from_str, u64_from_str_plus_decimalRepr n h0 h64, h0]

/-- Any string containing a character that is neither a digit nor a plus
fails E164 parsing. -/
theorem e164_from_str_none_of_bad_char (s : List Char) (c : Char)
    (hc : c ∈ s) (hd : ¬ c.isDigit) (hp : c ≠ '+') :
    E164.from_str s = none := by
  have h1 : c ∈ stripLeadingPlus s := by
    cases s with
    | nil => simp at hc
    | cons a rest =>
      by_cases ha : a = '+'
      · subst ha
        rw [stripLeadingPlus_cons_plus]
        rcases List.mem_cons.mp hc with rfl | h
        · exact absurd rfl hp
        · exact h
      · rwa [stripLeadingPlus_cons_ne a rest ha]
  have h2 : u64_from_str (stripLeadingPlus s) = none := by
    cases hs : stripLeadingPlus s with
    | nil => rfl
    | cons a rest =>
      rw [hs] at h1
      by_cases ha : a = '+'
      · subst ha
        have hcr : c ∈ rest := by
          rcases List.mem_cons.mp h1 with rfl | h
          · exact absurd rfl hp
          · exact h
        have hrne : rest ≠ [] := fun hh => by
          rw [hh] at hcr
          exact absurd hcr (List.not_mem_nil c)
        have hall : rest.all Char.isDigit = false := by
          rw [List.all_eq_false]
          exact ⟨c, hcr, by simpa using hd⟩
        simp [u64_from_str, hrne, hall]
      · have hall : (a :: rest).all Char.isDigit = false := by
          rw [List.all_eq_false]
          exact ⟨c, h1, by simpa using hd⟩
        simp [u64_from_str, ha, hall]
  rw [E164.from_str]
  simp [NonZeroU64_from_str, h2]

/-- C7: for every nonzero 64-bit number, parsing its text form with or
without one leading plus succeeds and the parsed phone number serializes
to the 8-byte big-endian representation; parsing the text 0 or text with
a non-numeric character fails; 18005551001 serializes to the documented
bytes. -/
theorem c7_e164_parse_serialize (n : Nat) (h0 : n ≠ 0) (h64 : n < 2 ^ 64) :
    E164.from_str (decimalRepr n) = some n ∧
    E164.from_str ('+' :: decimalRepr n) = some n ∧
    (E164.serialize n).length = 8 ∧
    beBytesToNat (E164.serialize n) = n ∧
    E164.from_str ['0'] = none ∧
    (∀ (s : List Char) (c : Char), c ∈ s → ¬ c.isDigit → c ≠ '+' →
      E164.from_str s = none) ∧
    E164.serialize 18005551001 =
      [0x00, 0x00, 0x00, 0x04, 0x31, 0x36, 0xe7, 0x99] :=
  ⟨e164_from_str_decimalRepr n h0 h64, e164_from_str_plus n h0 h64,
    rfl, beBytesToNat_to_be_bytes n h64, by decide,
    fun s c hc hd hp => e164_from_str_none_of_bad_char s c hc hd hp,
    by decide⟩

/-- Witness for C7 at the documented phone number 18005551001. -/
theorem c7_e164_parse_serialize_witness :
    E164.from_str ('+' :: decimalRepr 18005551001) = some 18005551001 ∧
    E164.serialize 18005551001 =
      [0x00, 0x00, 0x00, 0x04, 0x31, 0x36, 0xe7, 0x99] :=
  ⟨(c7_e164_parse_serialize 18005551001 (by decide) (by decide)).2.1,
   (c7_e164_parse_serialize 18005551001 (by decide) (by decide)).2.2.2.2.2.2⟩

/-- C10: a second leading plus survives the single-prefix strip and is
accepted by the underlying integer parser, giving the same value as the
digits alone; the bare strings plus and plus-plus are rejected. -/
theorem c10_double_plus_accepted (n : Nat) (h0 : n ≠ 0) (h64 : n < 2 ^ 64) :
    E164.from_str ('+' :: '+' :: decimalRepr n) = some n ∧
    E164.from_str ('+' :: '+' :: decimalRepr n) =
      E164.from_str (decimalRepr n) ∧
    E164.from_str ['+'] = none ∧
    E164.from_str ['+', '+'] = none := by
  refine ⟨e164_from_str_plus_plus n h0 h64, ?_, by decide, by decide⟩
  rw [e164_from_str_plus_plus n h0 h64, e164_from_str_decimalRepr n h0 h64]

/-- Witness for C10 at the number 123. -/
theorem c10_double_plus_accepted_witness :
    E164.from_str ('+' :: '+' :: decimalRepr 123) = some 123 :=
  (c10_double_plus_accepted 123 (by decide) (by decide)).1
